import Mathlib

/-!
Shallow embedding of the gradient-synchronization layer of
`chainermn/communicators/pure_nccl_communicator.py` and
`chainermn/communicators/single_node_communicator.py`.

Modelling conventions:
* Machine dtypes are the inductive `Dtype`; element values are exact rationals
  (`Rat`); the lossy numpy `astype` conversion between dtypes is modelled by
  `astype`, which rounds to the dyadic grid of the destination dtype's
  significand width (identity-free only when narrowing), so precision
  conversions are explicit and lossy while device arithmetic itself is exact.
* Python exceptions are modelled by `Except Err`; a raised exception is an
  `Except.error` value.
* Device buffers hold their element values as a `List Rat` together with a
  byte capacity; byte-level layout is abstracted away (packing at a given item
  size writes the concatenated element values and records the item size in the
  emitted event trace).
* Each public operation returns, besides the updated communicator state and
  model, a `List Ev` trace of the device/collective operations it performed,
  in program order, so that ordering properties (pack / reduce / scale /
  unpack) are provable.
* The peer processes' contributions to a collective all-reduce are passed as
  an explicit argument `peers`; the collective sum is elementwise over the
  local packed vector and the peers' vectors.
-/

namespace ChainerMN

/-- numpy dtypes that can reach this code: the three NCCL-supported floats,
an extended-precision float (numpy's `float128`, of kind `f` as well), and
two integer dtypes (kind `i`). -/
inductive Dtype
  | float16
  | float32
  | float64
  | float128
  | int32
  | int64
  deriving DecidableEq, Repr

/-- `numpy.dtype.kind`: `f` for floating point, `i` for signed integers. -/
def Dtype.kind : Dtype → Char
  | .int32 => 'i'
  | .int64 => 'i'
  | _ => 'f'

/-- `numpy.dtype.itemsize` in bytes. -/
def Dtype.itemsize : Dtype → Nat
  | .float16 => 2
  | .float32 => 4
  | .float64 => 8
  | .float128 => 16
  | .int32 => 4
  | .int64 => 8

/-- Fractional significand bits used to model the dtype's precision. -/
def Dtype.fracBits : Dtype → Nat
  | .float16 => 10
  | .float32 => 23
  | .float64 => 52
  | .float128 => 112
  | .int32 => 0
  | .int64 => 0

/-- Models `ndarray.astype(d)` elementwise: round the exact value down to the
dyadic grid of the destination dtype (a fixed-point abstraction of floating
point: lossy when narrowing, exact when the value already lies on the grid). -/
def astype (d : Dtype) (x : Rat) : Rat :=
  (Rat.floor (x * 2 ^ d.fracBits) : Rat) / ((2 : Rat) ^ d.fracBits)

/-- Python exception kinds raised by this code. -/
inductive Err
  | valueError (msg : String)
  | runtimeError (msg : String)
  | indexError
  | attributeError
  | assertionError
  deriving DecidableEq, Repr

instance {e a : Type} [DecidableEq e] [DecidableEq a] : DecidableEq (Except e a) := fun x y =>
  match x, y with
  | .ok u, .ok v => if h : u = v then isTrue (by rw [h]) else isFalse (by simp [h])
  | .error u, .error v => if h : u = v then isTrue (by rw [h]) else isFalse (by simp [h])
  | .ok _, .error _ => isFalse (by simp)
  | .error _, .ok _ => isFalse (by simp)

/-- One trainable parameter of the externally supplied model: a name, the
storage dtype of its views, a data view and an optional gradient view
(`none` models `param.grad is None`, e.g. a frozen layer). -/
structure Param where
  name : String
  dtype : Dtype
  data : List Rat
  grad : Option (List Rat)
  deriving DecidableEq, Repr

/-- Which view of a parameter an operation touches, the `'data'`/`'grad'`
attribute-name argument of the pack/unpack engine. -/
inductive ViewKind
  | data
  | grad
  deriving DecidableEq, Repr

def viewOf : ViewKind → Param → List Rat
  | .data, p => p.data
  | .grad, p => p.grad.getD []

def setView : ViewKind → Param → List Rat → Param
  | .data, p, xs => { p with data := xs }
  | .grad, p, xs => { p with grad := some xs }

/-- Insert a parameter into a name-sorted list (insertion step of the
name-sort used by parameter extraction). -/
def insertByName (p : Param) : List Param → List Param
  | [] => [p]
  | q :: rest =>
    if p.name < q.name then p :: q :: rest else q :: insertByName p rest

/-- `sorted(model.namedparams())`: the model's parameters sorted by name. -/
def sortedByName (model : List Param) : List Param :=
  model.foldr insertByName []

/-- Modelled from the spec: `_memory_utility.extract_params` (helper module
not among the sources) — "given the model's full named-parameter collection,
returns the ordered sequence of parameters whose gradient view is present
(... parameters without gradients ... are skipped silently); ... achieved by
sorting on parameter name". -/
def extract_params (model : List Param) : List Param :=
  (sortedByName model).filter (fun p => p.grad.isSome)

/-- A device memory block: byte capacity (grow-or-reuse) plus the element
values currently staged in it. -/
structure DeviceMemory where
  capacityBytes : Nat := 0
  contents : List Rat := []
  deriving DecidableEq, Repr

/-- Modelled from the spec: `DeviceMemory.assign(n_bytes)` "grows-or-reuses
the allocation to at least n_bytes (... never shrinks below previous
high-water mark)". -/
def DeviceMemory.assign (m : DeviceMemory) (nbytes : Nat) : DeviceMemory :=
  { m with capacityBytes := max m.capacityBytes nbytes }

/-- `from_device`: stage an array of values into the buffer. -/
def DeviceMemory.from_device (m : DeviceMemory) (arr : List Rat) : DeviceMemory :=
  { m with contents := arr }

/-- `array(n_elems, dtype)`: typed view of the first `n` elements. -/
def DeviceMemory.array (m : DeviceMemory) (n : Nat) : List Rat :=
  m.contents.take n

/-- Concatenation, in iteration order, of the selected view of each
parameter: the flat payload layout of the pack/unpack engine. -/
def concatView (v : ViewKind) : List Param → List Rat
  | [] => []
  | p :: rest => viewOf v p ++ concatView v rest

/-- Modelled from the spec: `_memory_utility.pack_params(params, itemsize,
name, buffer)` — "walks the ordered parameter sequence, and for each
parameter copies `count * item_size` bytes of its selected view into
`dest_buffer` at the running cumulative offset"; the byte layout is the
plain concatenation of the views, so at the value level the buffer receives
`concatView`.  The item size is byte-level detail recorded by the callers in
the event trace. -/
def pack_params (params : List Param) (_itemsize : Nat) (v : ViewKind)
    (buf : DeviceMemory) : DeviceMemory :=
  buf.from_device (concatView v params)

/-- Modelled from the spec: `_memory_utility.unpack_params` — "the exact
inverse: copies from the running offset in the source buffer back into each
parameter's selected view". -/
def unpack_params (params : List Param) (_itemsize : Nat) (v : ViewKind)
    (buf : List Rat) : List Param :=
  match params with
  | [] => []
  | p :: rest =>
    let k := (viewOf v p).length
    setView v p (buf.take k) :: unpack_params rest _itemsize v (buf.drop k)

/-- Write the per-call updated parameter sequence back into the model: the
source mutates the shared parameter objects in place, which for models with
distinct parameter names is replacement by name. -/
def applyParams (model updated : List Param) : List Param :=
  model.map (fun p => ((updated.find? (fun q => q.name = p.name)).getD p))

/-- Elementwise sum of the local packed vector with every peer process's
contribution: the value semantics of an NCCL sum all-reduce. -/
def allReduceSum (xs : List Rat) (peers : List (List Rat)) : List Rat :=
  peers.foldl (fun acc v => acc.zipWith (· + ·) v) xs

/-- NCCL wire type tags. -/
inductive NcclTypeId
  | ncclFloat16
  | ncclFloat32
  | ncclFloat64
  deriving DecidableEq, Repr

/-- `nccl.NCCL_FLOAT` (the 4-byte float tag). -/
def NCCL_FLOAT : NcclTypeId := .ncclFloat32

/-- Reduction ops; only SUM is used. -/
inductive RedOp
  | sum
  deriving DecidableEq, Repr

/-- Which device buffer an event touched. -/
inductive BufId
  | bufA
  | bufB
  | tmp
  deriving DecidableEq, Repr

/-- Which communicator a collective ran on. -/
inductive CommKind
  | world
  | intra
  deriving DecidableEq, Repr

/-- Observable operations of one `broadcast_data`/`allreduce_grad` call, in
program order. -/
inductive Ev
  | packParams (v : ViewKind) (itemsize : Nat) (dst : BufId)
  | convert (src dst : Dtype)
  | copyIn (dst : BufId)
  | allReduce (src dst : BufId) (n : Nat) (ty : NcclTypeId) (op : RedOp) (comm : CommKind)
  | bcast (buf : BufId) (n : Nat) (ty : NcclTypeId) (root : Nat) (comm : CommKind)
  | bcastNaive
  | scale (factor : Rat)
  | unpackParams (v : ViewKind) (itemsize : Nat) (src : BufId)
  deriving DecidableEq, Repr

def Ev.isScale : Ev → Bool
  | .scale _ => true
  | _ => false

def Ev.isAllReduce : Ev → Bool
  | .allReduce _ _ _ _ _ _ => true
  | _ => false

/-- State of the external NCCL library in this process: availability
(`nccl._available`) and version (`nccl.get_version()`). -/
structure NcclEnv where
  available : Bool
  version : Nat
  deriving DecidableEq, Repr

/-- The MPI substrate: global rank/size and the node topology the rank
resolver derives from it. -/
structure MpiComm where
  rank : Nat
  size : Nat
  intraRank : Nat
  intraSize : Nat
  interRank : Nat
  interSize : Nat
  deriving DecidableEq, Repr

/-- An NCCL communicator handle; the `id` tags which invocation of the
construction hook created it, so reuse versus re-construction is observable. -/
structure NcclComm where
  id : Nat
  deriving DecidableEq, Repr

/-- `_get_nccl_type_id(dtype)` (pure_nccl_communicator.py, lines 139-148). -/
def _get_nccl_type_id (dtype : Dtype) : Except Err NcclTypeId :=
  if dtype = .float16 then pure .ncclFloat16
  else if dtype = .float32 then pure .ncclFloat32
  else if dtype = .float64 then pure .ncclFloat64
  else throw (Err.valueError "dtype must be float16, float32, or float64.")

/-- `_get_param_grad_dtype(param) = param.grad.dtype` (lines 135-136); in the
model the storage dtype is carried on the parameter. -/
def _get_param_grad_dtype (param : Param) : Dtype := param.dtype

/-- `sum(param.grad.size for param in params)`: accessing `param.grad.size`
raises AttributeError when the gradient view is `None`. -/
def sumGradSizes : List Param → Except Err Nat
  | [] => pure 0
  | p :: rest =>
    match p.grad with
    | none => throw Err.attributeError
    | some g => do
      let s ← sumGradSizes rest
      pure (g.length + s)

/-- `PureNcclCommunicator` instance state (pure_nccl_communicator.py). The
`ncclInitCount` field is the call counter on the handle-construction hook. -/
structure PureNcclCommunicator where
  mpi : MpiComm
  intra_rank : Nat
  intra_size : Nat
  inter_rank : Nat
  inter_size : Nat
  nccl_comm : Option NcclComm
  gpu_tmp_buffer : DeviceMemory
  gpu_allreduce_buffer_a : DeviceMemory
  gpu_allreduce_buffer_b : DeviceMemory
  allreduce_grad_dtype : Option Dtype
  ncclInitCount : Nat
  deriving DecidableEq, Repr

/-- `self.size` from the communicator base: the global process-group size. -/
def PureNcclCommunicator.size (c : PureNcclCommunicator) : Nat := c.mpi.size

/-- `PureNcclCommunicator.__init__` (lines 13-38): version check, rank
resolution (`_init_ranks`, modelled from the spec's rank/topology resolver as
reading the substrate's topology query), delayed NCCL state, buffers, and
validation of the optional `allreduce_grad_dtype` override (kind must be
`f`). -/
def PureNcclCommunicator.mkInitial (mpi : MpiComm) (dtype? : Option Dtype) :
    PureNcclCommunicator :=
  { mpi := mpi
    intra_rank := mpi.intraRank
    intra_size := mpi.intraSize
    inter_rank := mpi.interRank
    inter_size := mpi.interSize
    nccl_comm := none
    gpu_tmp_buffer := {}
    gpu_allreduce_buffer_a := {}
    gpu_allreduce_buffer_b := {}
    allreduce_grad_dtype := dtype?
    ncclInitCount := 0 }

def PureNcclCommunicator.init (env : NcclEnv) (mpi : MpiComm)
    (dt : Option Dtype) : Except Err PureNcclCommunicator :=
  if env.version < 2000 then
    throw (Err.runtimeError "PureNcclCommunicator is only supported on NCCL 2.0+")
  else
    match dt with
    | some d =>
      if d.kind ≠ 'f' then
        throw (Err.valueError
          "allreduce_grad_dtype must benumpy.float16, numpy.float32,numpy.float64, or None.")
      else
        pure (PureNcclCommunicator.mkInitial mpi (some d))
    | none => pure (PureNcclCommunicator.mkInitial mpi none)

/-- `PureNcclCommunicator._init_comms` (lines 48-58): return immediately when
the handle exists; otherwise require NCCL availability and construct the
handle (incrementing the construction-hook counter). -/
def PureNcclCommunicator._init_comms (env : NcclEnv)
    (c : PureNcclCommunicator) : Except Err PureNcclCommunicator :=
  if c.nccl_comm.isSome then
    pure c
  else if ¬ env.available then
    throw (Err.runtimeError
      "NCCL is not available. Please confirm that NCCL is enabled in CuPy.")
  else
    pure { c with nccl_comm := some ⟨c.ncclInitCount⟩
                  ncclInitCount := c.ncclInitCount + 1 }

/-- Modelled from the spec: `_communication_utility.broadcast_naive` (helper
module not among the sources) — "a naive broadcast primitive used as a
fallback path" over the MPI substrate alone; it never touches NCCL state.
Value model: rank 0's parameters are kept. -/
def broadcast_naive (model : List Param) : List Param := model

/-- `PureNcclCommunicator.broadcast_data` (lines 60-61): delegates to the
naive MPI broadcast; the communicator state (in particular the NCCL handle)
is untouched. -/
def PureNcclCommunicator.broadcast_data (c : PureNcclCommunicator)
    (model : List Param) : PureNcclCommunicator × List Param × List Ev :=
  (c, broadcast_naive model, [Ev.bcastNaive])

/-- `PureNcclCommunicator._assign` (lines 94-100). -/
def PureNcclCommunicator._assign (c : PureNcclCommunicator)
    (grad_dtype allreduce_dtype : Dtype) (n_elems : Nat) :
    PureNcclCommunicator :=
  let n := allreduce_dtype.itemsize * n_elems
  let c := { c with gpu_allreduce_buffer_a := c.gpu_allreduce_buffer_a.assign n
                    gpu_allreduce_buffer_b := c.gpu_allreduce_buffer_b.assign n }
  if grad_dtype ≠ allreduce_dtype then
    { c with gpu_tmp_buffer := c.gpu_tmp_buffer.assign (grad_dtype.itemsize * n_elems) }
  else
    c

/-- `PureNcclCommunicator._pack_params_to_buffer` (lines 102-117): equal
dtypes pack straight into reduction buffer A at wire width; differing dtypes
pack into the staging buffer at native width, convert elementwise to the
wire dtype, and copy into buffer A. -/
def PureNcclCommunicator._pack_params_to_buffer (c : PureNcclCommunicator)
    (params : List Param) (grad_dtype allreduce_dtype : Dtype)
    (n_elems : Nat) : PureNcclCommunicator × List Ev :=
  if grad_dtype = allreduce_dtype then
    ({ c with gpu_allreduce_buffer_a :=
         pack_params params allreduce_dtype.itemsize .grad c.gpu_allreduce_buffer_a },
     [Ev.packParams .grad allreduce_dtype.itemsize .bufA])
  else
    let tmp := pack_params params grad_dtype.itemsize .grad c.gpu_tmp_buffer
    let ret := (tmp.array n_elems).map (astype allreduce_dtype)
    ({ c with gpu_tmp_buffer := tmp
              gpu_allreduce_buffer_a := c.gpu_allreduce_buffer_a.from_device ret },
     [Ev.packParams .grad grad_dtype.itemsize .tmp,
      Ev.convert grad_dtype allreduce_dtype,
      Ev.copyIn .bufA])

/-- `PureNcclCommunicator._unpack_params_from_buffer` (lines 119-132): equal
dtypes unpack straight from buffer B at wire width; differing dtypes convert
buffer B back to the native dtype, stage through the temporary buffer, and
unpack at native width. -/
def PureNcclCommunicator._unpack_params_from_buffer (c : PureNcclCommunicator)
    (params : List Param) (grad_dtype allreduce_dtype : Dtype)
    (n_elems : Nat) : PureNcclCommunicator × List Param × List Ev :=
  if grad_dtype = allreduce_dtype then
    (c,
     unpack_params params allreduce_dtype.itemsize .grad
       c.gpu_allreduce_buffer_b.contents,
     [Ev.unpackParams .grad allreduce_dtype.itemsize .bufB])
  else
    let ret := (c.gpu_allreduce_buffer_b.array n_elems).map (astype grad_dtype)
    let c := { c with gpu_tmp_buffer := c.gpu_tmp_buffer.from_device ret }
    (c,
     unpack_params params grad_dtype.itemsize .grad c.gpu_tmp_buffer.contents,
     [Ev.convert allreduce_dtype grad_dtype,
      Ev.copyIn .tmp,
      Ev.unpackParams .grad grad_dtype.itemsize .tmp])

/-- `PureNcclCommunicator.allreduce_grad` (lines 63-92), in source order:
ensure comms, extract parameters, read the first parameter's gradient dtype
(IndexError on an empty extraction), choose the wire dtype (override or
native), size buffers, pack, map the wire dtype to an NCCL tag (ValueError
outside the supported set), reduce-sum into buffer B, scale the reduced sum
by `1.0 / size`, write it back, and unpack. -/
def PureNcclCommunicator.allreduce_grad (env : NcclEnv)
    (c : PureNcclCommunicator) (model : List Param)
    (peers : List (List Rat)) :
    Except Err (PureNcclCommunicator × List Param × List Ev) := do
  let c ← c._init_comms env
  let params := extract_params model
  let grad_dtype ←
    match params with
    | [] => throw Err.indexError
    | p :: _ => pure (_get_param_grad_dtype p)
  let allreduce_dtype := c.allreduce_grad_dtype.getD grad_dtype
  let n_elems ← sumGradSizes params
  let c := c._assign grad_dtype allreduce_dtype n_elems
  let (c, evPack) := c._pack_params_to_buffer params grad_dtype allreduce_dtype n_elems
  let tyId ← _get_nccl_type_id allreduce_dtype
  let reduced := allReduceSum (c.gpu_allreduce_buffer_a.array n_elems) peers
  let c := { c with gpu_allreduce_buffer_b := c.gpu_allreduce_buffer_b.from_device reduced }
  let ret := (c.gpu_allreduce_buffer_b.array n_elems).map
    (fun x => x * (1 / (c.size : Rat)))
  let c := { c with gpu_allreduce_buffer_b := c.gpu_allreduce_buffer_b.from_device ret }
  let (c, params2, evUnpack) :=
    c._unpack_params_from_buffer params grad_dtype allreduce_dtype n_elems
  pure (c, applyParams model params2,
        evPack ++
          [Ev.allReduce .bufA .bufB n_elems tyId .sum .world,
           Ev.scale (1 / (c.size : Rat)),
           Ev.copyIn .bufB] ++
          evUnpack)

/-- `SingleNodeCommunicator` instance state (single_node_communicator.py). -/
structure SingleNodeCommunicator where
  mpi : MpiComm
  intra_rank : Nat
  intra_size : Nat
  inter_rank : Nat
  inter_size : Nat
  inter_mpi_comm : Option Nat
  intra_nccl_comm : Option NcclComm
  gpu_buffer_a : DeviceMemory
  gpu_buffer_b : DeviceMemory
  ncclInitCount : Nat
  deriving DecidableEq, Repr

def SingleNodeCommunicator.size (c : SingleNodeCommunicator) : Nat := c.mpi.size

/-- `SingleNodeCommunicator.__init__` (lines 3-13 of the file, i.e. the
constructor): resolve the topology, reject multi-node topologies with a
ValueError, then create the buffers and the delayed NCCL state.  The base
class is not among the sources; modelled from the spec: the base resolves
the topology and leaves every communicator handle attribute unconstructed
(`none`), per the lazy-initialization design (handles are never constructed
at construction time). -/
def SingleNodeCommunicator.init (mpi : MpiComm) :
    Except Err SingleNodeCommunicator :=
  if mpi.interSize ≠ 1 then
    throw (Err.valueError
      "SingleNodeCommunicator cannot be used under multi-node settings")
  else
    pure { mpi := mpi
           intra_rank := mpi.intraRank
           intra_size := mpi.intraSize
           inter_rank := mpi.interRank
           inter_size := mpi.interSize
           inter_mpi_comm := none
           intra_nccl_comm := none
           gpu_buffer_a := {}
           gpu_buffer_b := {}
           ncclInitCount := 0 }

/-- `SingleNodeCommunicator._init_comms` (lines 15-30 of the file): the
re-entry guard tests `inter_mpi_comm` (asserting the NCCL handle exists when
it fires); otherwise it requires NCCL availability, builds an intra-node MPI
communicator into a local variable, and constructs the intra-node NCCL
handle — without ever assigning `inter_mpi_comm`. -/
def SingleNodeCommunicator._init_comms (env : NcclEnv)
    (c : SingleNodeCommunicator) : Except Err SingleNodeCommunicator :=
  match c.inter_mpi_comm with
  | some _ =>
    if c.intra_nccl_comm.isSome then pure c else throw Err.assertionError
  | none =>
    if ¬ env.available then
      throw (Err.runtimeError
        "NCCL is not available. Please confirm that NCCL is enabled in CuPy.")
    else
      pure { c with intra_nccl_comm := some ⟨c.ncclInitCount⟩
                    ncclInitCount := c.ncclInitCount + 1 }

/-- `SingleNodeCommunicator.broadcast_data` (lines 32-50 of the file): ensure
comms, take all named parameters sorted by name (no gradient filter), size
the transfer buffer from each parameter's gradient element count at a
hardcoded 4-byte item size (AttributeError when a parameter has no gradient
view), pack the data view, broadcast from intra-rank 0 with the 4-byte float
tag, and unpack the data view. -/
def SingleNodeCommunicator.broadcast_data (env : NcclEnv)
    (c : SingleNodeCommunicator) (model : List Param) :
    Except Err (SingleNodeCommunicator × List Param × List Ev) := do
  let c ← c._init_comms env
  let params := sortedByName model
  let itemsize := 4
  let n_elems_total ← sumGradSizes params
  let n_bytes_total := n_elems_total * itemsize
  let c := { c with gpu_buffer_a := c.gpu_buffer_a.assign n_bytes_total }
  let c := { c with gpu_buffer_a := pack_params params itemsize .data c.gpu_buffer_a }
  let params2 := unpack_params params itemsize .data c.gpu_buffer_a.contents
  pure (c, applyParams model params2,
        [Ev.packParams .data itemsize .bufA,
         Ev.bcast .bufA n_elems_total NCCL_FLOAT 0 .intra,
         Ev.unpackParams .data itemsize .bufA])

/-- `SingleNodeCommunicator.allreduce_grad` (lines 52-74 of the file): ensure
comms, extract gradient-bearing parameters, size both buffers at a hardcoded
4-byte item size, pack gradients into buffer A, reduce-sum A into B across
the intra-node NCCL communicator with the 4-byte float tag, multiply buffer
B in place by `1.0 / size`, and unpack buffer B into the gradients. -/
def SingleNodeCommunicator.allreduce_grad (env : NcclEnv)
    (c : SingleNodeCommunicator) (model : List Param)
    (peers : List (List Rat)) :
    Except Err (SingleNodeCommunicator × List Param × List Ev) := do
  let c ← c._init_comms env
  let params := extract_params model
  let itemsize := 4
  let n_elems_total ← sumGradSizes params
  let n_bytes_total := n_elems_total * itemsize
  let c := { c with gpu_buffer_a := c.gpu_buffer_a.assign n_bytes_total
                    gpu_buffer_b := c.gpu_buffer_b.assign n_bytes_total }
  let c := { c with gpu_buffer_a := pack_params params itemsize .grad c.gpu_buffer_a }
  let reduced := allReduceSum (c.gpu_buffer_a.array n_elems_total) peers
  let c := { c with gpu_buffer_b := c.gpu_buffer_b.from_device reduced }
  let arr := (c.gpu_buffer_b.array n_elems_total).map
    (fun x => x * (1 / (c.size : Rat)))
  let c := { c with gpu_buffer_b := c.gpu_buffer_b.from_device arr }
  let params2 := unpack_params params itemsize .grad c.gpu_buffer_b.contents
  pure (c, applyParams model params2,
        [Ev.packParams .grad itemsize .bufA,
         Ev.allReduce .bufA .bufB n_elems_total NCCL_FLOAT .sum .intra,
         Ev.scale (1 / (c.size : Rat)),
         Ev.unpackParams .grad itemsize .bufB])

/-! ### Basic lemmas about the helper operations -/

lemma mem_insertByName {q p : Param} {l : List Param} :
    q ∈ insertByName p l ↔ q = p ∨ q ∈ l := by
  induction l with
  | nil => simp [insertByName]
  | cons r rest ih =>
    simp only [insertByName]
    split
    · simp
    · simp [ih]
      tauto

lemma mem_sortedByName {q : Param} {model : List Param} :
    q ∈ sortedByName model ↔ q ∈ model := by
  induction model with
  | nil => simp [sortedByName]
  | cons p rest ih =>
    simp only [sortedByName, List.foldr] at *
    rw [mem_insertByName, ih]
    simp

lemma extract_params_grad_isSome {p : Param} {model : List Param}
    (h : p ∈ extract_params model) : p.grad.isSome := by
  unfold extract_params at h
  exact (List.mem_filter.mp h).2

lemma extract_params_subset {p : Param} {model : List Param}
    (h : p ∈ extract_params model) : p ∈ model := by
  unfold extract_params at h
  exact mem_sortedByName.mp (List.mem_filter.mp h).1

lemma extract_params_eq_nil {model : List Param}
    (h : ∀ p ∈ model, p.grad = none) : extract_params model = [] := by
  unfold extract_params
  rw [List.filter_eq_nil_iff]
  intro p hp
  simp [h p (mem_sortedByName.mp hp)]

lemma sumGradSizes_ok {params : List Param}
    (h : ∀ p ∈ params, p.grad.isSome) :
    sumGradSizes params = .ok (concatView .grad params).length := by
  induction params with
  | nil => simp [sumGradSizes, concatView, pure, Except.pure]
  | cons p rest ih =>
    have hp := h p (by simp)
    obtain ⟨g, hg⟩ := Option.isSome_iff_exists.mp hp
    have ihr := ih (fun q hq => h q (by simp [hq]))
    simp [sumGradSizes, hg, ihr, concatView, viewOf, pure, Except.pure,
      Bind.bind, Except.bind]

lemma sumGradSizes_error {params : List Param}
    (h : ∃ p ∈ params, p.grad = none) :
    sumGradSizes params = .error Err.attributeError := by
  induction params with
  | nil => simp at h
  | cons p rest ih =>
    obtain ⟨q, hq, hqg⟩ := h
    rcases List.mem_cons.mp hq with rfl | hq'
    · simp only [sumGradSizes, hqg]
      rfl
    · cases hg : p.grad with
      | none =>
        simp only [sumGradSizes, hg]
        rfl
      | some g =>
        have := ih ⟨q, hq', hqg⟩
        simp [sumGradSizes, hg, this, Bind.bind, Except.bind]

lemma take_len_append {α : Type} (xs ys : List α) :
    (xs ++ ys).take xs.length = xs := by
  simp

lemma allReduceSum_peers_nil (xs : List Rat) : allReduceSum xs [] = xs := rfl

lemma allReduceSum_nil (peers : List (List Rat)) :
    allReduceSum [] peers = [] := by
  unfold allReduceSum
  induction peers with
  | nil => rfl
  | cons v rest ih =>
    simpa using ih

lemma setView_viewOf_grad {p : Param} (h : p.grad.isSome) :
    setView .grad p (viewOf .grad p) = p := by
  obtain ⟨g, hg⟩ := Option.isSome_iff_exists.mp h
  cases p
  simp_all [setView, viewOf]

lemma setView_name (v : ViewKind) (p : Param) (xs : List Rat) :
    (setView v p xs).name = p.name := by
  cases v <;> rfl

lemma unpack_params_concat_map (v : ViewKind) (f : Rat → Rat) (i : Nat)
    (params : List Param) (rest : List Rat) :
    unpack_params params i v ((concatView v params).map f ++ rest) =
      params.map (fun p => setView v p ((viewOf v p).map f)) := by
  induction params generalizing rest with
  | nil => simp [unpack_params]
  | cons p ps ih =>
    have hlen : ((viewOf v p).map f).length = (viewOf v p).length :=
      List.length_map _ _
    simp only [unpack_params, concatView, List.map_append, List.append_assoc]
    rw [← hlen, take_len_append, List.drop_left]
    simp only [List.map_cons]
    rw [ih rest]

lemma unpack_params_concat (v : ViewKind) (i : Nat) (params : List Param) :
    unpack_params params i v (concatView v params) =
      params.map (fun p => setView v p (viewOf v p)) := by
  have := unpack_params_concat_map v id i params []
  simpa using this

lemma applyParams_nil (model : List Param) :
    applyParams model [] = model := by
  simp [applyParams]

lemma applyParams_map_extract (model : List Param) (g : Param → Param)
    (hg : ∀ p, (g p).name = p.name)
    (hnd : (model.map Param.name).Nodup) :
    applyParams model ((extract_params model).map g) =
      model.map (fun p => if p.grad.isSome then g p else p) := by
  unfold applyParams
  apply List.map_congr_left
  intro p hp
  by_cases hps : p.grad.isSome
  · have hpe : p ∈ extract_params model := by
      unfold extract_params
      exact List.mem_filter.mpr ⟨mem_sortedByName.mpr hp, hps⟩
    have hmem : g p ∈ (extract_params model).map g := List.mem_map_of_mem g hpe
    have hfind : ∃ r, ((extract_params model).map g).find?
        (fun q => q.name = p.name) = some r := by
      rw [← Option.isSome_iff_exists, List.find?_isSome]
      exact ⟨g p, hmem, by simp [hg p]⟩
    obtain ⟨r, hr⟩ := hfind
    have hrmem := List.mem_of_find?_eq_some hr
    have hrname : r.name = p.name := by
      have := List.find?_some hr
      simpa using this
    obtain ⟨q, hq, rfl⟩ := List.mem_map.mp hrmem
    have hqname : q.name = p.name := by rw [← hrname, hg q]
    have hqmem : q ∈ model := extract_params_subset hq
    have : q = p :=
      List.inj_on_of_nodup_map hnd hqmem hp hqname
    subst this
    simp [hr, hps]
  · have hfind : ((extract_params model).map g).find?
        (fun q => q.name = p.name) = none := by
      rw [List.find?_eq_none]
      intro r hrmem
      obtain ⟨q, hq, rfl⟩ := List.mem_map.mp hrmem
      have hqmem : q ∈ model := extract_params_subset hq
      simp only [hg q, decide_eq_true_eq]
      intro hqname
      have : q = p := List.inj_on_of_nodup_map hnd hqmem hp hqname
      subst this
      exact hps (extract_params_grad_isSome hq)
    simp [hfind, hps]

@[simp] lemma except_bind_ok {α β : Type} (a : α) (f : α → Except Err β) :
    (Except.ok a : Except Err α) >>= f = f a := rfl

@[simp] lemma except_bind_error {α β : Type} (e : Err) (f : α → Except Err β) :
    (Except.error e : Except Err α) >>= f = Except.error e := rfl

@[simp] lemma except_pure_eq {α : Type} (a : α) :
    (pure a : Except Err α) = Except.ok a := rfl

@[simp] lemma except_throw_eq {α : Type} (e : Err) :
    (throw e : Except Err α) = Except.error e := rfl

/-! ### `_init_comms` state facts -/

lemma pure_init_comms_fields {env : NcclEnv} {c c1 : PureNcclCommunicator}
    (h : c._init_comms env = .ok c1) :
    c1.mpi = c.mpi ∧ c1.allreduce_grad_dtype = c.allreduce_grad_dtype ∧
      c1.gpu_tmp_buffer = c.gpu_tmp_buffer ∧
      c1.gpu_allreduce_buffer_a = c.gpu_allreduce_buffer_a ∧
      c1.gpu_allreduce_buffer_b = c.gpu_allreduce_buffer_b := by
  unfold PureNcclCommunicator._init_comms at h
  split at h
  · cases h
    exact ⟨rfl, rfl, rfl, rfl, rfl⟩
  · split at h
    · cases h
    · cases h
      exact ⟨rfl, rfl, rfl, rfl, rfl⟩

lemma single_init_comms_fields {env : NcclEnv} {c c1 : SingleNodeCommunicator}
    (h : c._init_comms env = .ok c1) :
    c1.mpi = c.mpi ∧ c1.gpu_buffer_a = c.gpu_buffer_a ∧
      c1.gpu_buffer_b = c.gpu_buffer_b ∧
      c1.inter_mpi_comm = c.inter_mpi_comm := by
  unfold SingleNodeCommunicator._init_comms at h
  split at h
  · split at h
    · cases h
      exact ⟨rfl, rfl, rfl, rfl⟩
    · cases h
  · split at h
    · cases h
    · cases h
      exact ⟨rfl, rfl, rfl, rfl⟩

/-! ### Success-shape lemmas for the orchestrator operations

The `...Tail` definitions below are proof-structuring helpers only: they
restate what the corresponding operation computes once its fallible steps
have produced values, so that a successful call can be eliminated into an
explicit computation.  The operations themselves keep the source's program
order. -/

def pureNcclTail (c : PureNcclCommunicator) (params : List Param)
    (grad_dtype : Dtype) (n_elems : Nat) (tyId : NcclTypeId)
    (peers : List (List Rat)) (model : List Param) :
    PureNcclCommunicator × List Param × List Ev :=
  let allreduce_dtype := c.allreduce_grad_dtype.getD grad_dtype
  let c := c._assign grad_dtype allreduce_dtype n_elems
  let (c, evPack) := c._pack_params_to_buffer params grad_dtype allreduce_dtype n_elems
  let reduced := allReduceSum (c.gpu_allreduce_buffer_a.array n_elems) peers
  let c := { c with gpu_allreduce_buffer_b := c.gpu_allreduce_buffer_b.from_device reduced }
  let ret := (c.gpu_allreduce_buffer_b.array n_elems).map
    (fun x => x * (1 / (c.size : Rat)))
  let c := { c with gpu_allreduce_buffer_b := c.gpu_allreduce_buffer_b.from_device ret }
  let (c, params2, evUnpack) :=
    c._unpack_params_from_buffer params grad_dtype allreduce_dtype n_elems
  (c, applyParams model params2,
    evPack ++
      [Ev.allReduce .bufA .bufB n_elems tyId .sum .world,
       Ev.scale (1 / (c.size : Rat)),
       Ev.copyIn .bufB] ++
      evUnpack)

lemma pure_allreduce_ok_elim {env : NcclEnv} {c : PureNcclCommunicator}
    {model : List Param} {peers : List (List Rat)}
    {out : PureNcclCommunicator × List Param × List Ev}
    (h : PureNcclCommunicator.allreduce_grad env c model peers = .ok out) :
    ∃ c1 p ps n ty,
      c._init_comms env = .ok c1 ∧
      extract_params model = p :: ps ∧
      sumGradSizes (p :: ps) = .ok n ∧
      _get_nccl_type_id (c1.allreduce_grad_dtype.getD p.dtype) = .ok ty ∧
      out = pureNcclTail c1 (p :: ps) p.dtype n ty peers model := by
  unfold PureNcclCommunicator.allreduce_grad at h
  cases hI : c._init_comms env with
  | error e => rw [hI] at h; simp at h
  | ok c1 =>
    rw [hI] at h
    simp only [except_bind_ok] at h
    cases hE : extract_params model with
    | nil => rw [hE] at h; simp at h
    | cons p ps =>
      rw [hE] at h
      simp only [except_pure_eq, except_bind_ok, _get_param_grad_dtype] at h
      cases hS : sumGradSizes (p :: ps) with
      | error e => rw [hS] at h; simp at h
      | ok n =>
        rw [hS] at h
        simp only [except_pure_eq, except_bind_ok] at h
        cases hT : _get_nccl_type_id (c1.allreduce_grad_dtype.getD p.dtype) with
        | error e => rw [hT] at h; simp at h
        | ok ty =>
          rw [hT] at h
          simp only [except_pure_eq, except_bind_ok, Except.ok.injEq] at h
          refine ⟨c1, p, ps, n, ty, rfl, rfl, hS, hT, ?_⟩
          rw [← h]
          rfl

lemma pure_allreduce_ok_intro {env : NcclEnv} {c c1 : PureNcclCommunicator}
    {model : List Param} {peers : List (List Rat)}
    {p : Param} {ps : List Param} {n : Nat} {ty : NcclTypeId}
    (hI : c._init_comms env = .ok c1)
    (hE : extract_params model = p :: ps)
    (hS : sumGradSizes (p :: ps) = .ok n)
    (hT : _get_nccl_type_id (c1.allreduce_grad_dtype.getD p.dtype) = .ok ty) :
    PureNcclCommunicator.allreduce_grad env c model peers =
      .ok (pureNcclTail c1 (p :: ps) p.dtype n ty peers model) := by
  unfold PureNcclCommunicator.allreduce_grad
  rw [hI]
  simp only [except_bind_ok]
  rw [hE]
  simp only [except_pure_eq, except_bind_ok, _get_param_grad_dtype]
  rw [hS]
  simp only [except_pure_eq, except_bind_ok]
  rw [hT]
  simp only [except_pure_eq, except_bind_ok]
  rfl

def singleAllreduceTail (c : SingleNodeCommunicator) (params : List Param)
    (n_elems_total : Nat) (peers : List (List Rat)) (model : List Param) :
    SingleNodeCommunicator × List Param × List Ev :=
  let itemsize := 4
  let n_bytes_total := n_elems_total * itemsize
  let c := { c with gpu_buffer_a := c.gpu_buffer_a.assign n_bytes_total
                    gpu_buffer_b := c.gpu_buffer_b.assign n_bytes_total }
  let c := { c with gpu_buffer_a := pack_params params itemsize .grad c.gpu_buffer_a }
  let reduced := allReduceSum (c.gpu_buffer_a.array n_elems_total) peers
  let c := { c with gpu_buffer_b := c.gpu_buffer_b.from_device reduced }
  let arr := (c.gpu_buffer_b.array n_elems_total).map
    (fun x => x * (1 / (c.size : Rat)))
  let c := { c with gpu_buffer_b := c.gpu_buffer_b.from_device arr }
  let params2 := unpack_params params itemsize .grad c.gpu_buffer_b.contents
  (c, applyParams model params2,
    [Ev.packParams .grad itemsize .bufA,
     Ev.allReduce .bufA .bufB n_elems_total NCCL_FLOAT .sum .intra,
     Ev.scale (1 / (c.size : Rat)),
     Ev.unpackParams .grad itemsize .bufB])

lemma single_allreduce_ok_elim {env : NcclEnv} {c : SingleNodeCommunicator}
    {model : List Param} {peers : List (List Rat)}
    {out : SingleNodeCommunicator × List Param × List Ev}
    (h : SingleNodeCommunicator.allreduce_grad env c model peers = .ok out) :
    ∃ c1 n,
      c._init_comms env = .ok c1 ∧
      sumGradSizes (extract_params model) = .ok n ∧
      out = singleAllreduceTail c1 (extract_params model) n peers model := by
  unfold SingleNodeCommunicator.allreduce_grad at h
  cases hI : c._init_comms env with
  | error e => rw [hI] at h; simp at h
  | ok c1 =>
    rw [hI] at h
    simp only [except_bind_ok] at h
    cases hS : sumGradSizes (extract_params model) with
    | error e => rw [hS] at h; simp at h
    | ok n =>
      rw [hS] at h
      simp only [except_bind_ok, except_pure_eq, Except.ok.injEq] at h
      refine ⟨c1, n, rfl, rfl, ?_⟩
      rw [← h]
      rfl

lemma single_allreduce_ok_intro {env : NcclEnv} {c c1 : SingleNodeCommunicator}
    {model : List Param} {peers : List (List Rat)} {n : Nat}
    (hI : c._init_comms env = .ok c1)
    (hS : sumGradSizes (extract_params model) = .ok n) :
    SingleNodeCommunicator.allreduce_grad env c model peers =
      .ok (singleAllreduceTail c1 (extract_params model) n peers model) := by
  unfold SingleNodeCommunicator.allreduce_grad
  rw [hI]
  simp only [except_bind_ok]
  rw [hS]
  simp only [except_bind_ok, except_pure_eq]
  rfl

def singleBroadcastTail (c : SingleNodeCommunicator) (params : List Param)
    (n_elems_total : Nat) (model : List Param) :
    SingleNodeCommunicator × List Param × List Ev :=
  let itemsize := 4
  let n_bytes_total := n_elems_total * itemsize
  let c := { c with gpu_buffer_a := c.gpu_buffer_a.assign n_bytes_total }
  let c := { c with gpu_buffer_a := pack_params params itemsize .data c.gpu_buffer_a }
  let params2 := unpack_params params itemsize .data c.gpu_buffer_a.contents
  (c, applyParams model params2,
    [Ev.packParams .data itemsize .bufA,
     Ev.bcast .bufA n_elems_total NCCL_FLOAT 0 .intra,
     Ev.unpackParams .data itemsize .bufA])

lemma single_broadcast_ok_elim {env : NcclEnv} {c : SingleNodeCommunicator}
    {model : List Param}
    {out : SingleNodeCommunicator × List Param × List Ev}
    (h : SingleNodeCommunicator.broadcast_data env c model = .ok out) :
    ∃ c1 n,
      c._init_comms env = .ok c1 ∧
      sumGradSizes (sortedByName model) = .ok n ∧
      out = singleBroadcastTail c1 (sortedByName model) n model := by
  unfold SingleNodeCommunicator.broadcast_data at h
  cases hI : c._init_comms env with
  | error e => rw [hI] at h; simp at h
  | ok c1 =>
    rw [hI] at h
    simp only [except_bind_ok] at h
    cases hS : sumGradSizes (sortedByName model) with
    | error e => rw [hS] at h; simp at h
    | ok n =>
      rw [hS] at h
      simp only [except_bind_ok, except_pure_eq, Except.ok.injEq] at h
      refine ⟨c1, n, rfl, rfl, ?_⟩
      rw [← h]
      rfl

lemma single_broadcast_ok_intro {env : NcclEnv} {c c1 : SingleNodeCommunicator}
    {model : List Param} {n : Nat}
    (hI : c._init_comms env = .ok c1)
    (hS : sumGradSizes (sortedByName model) = .ok n) :
    SingleNodeCommunicator.broadcast_data env c model =
      .ok (singleBroadcastTail c1 (sortedByName model) n model) := by
  unfold SingleNodeCommunicator.broadcast_data
  rw [hI]
  simp only [except_bind_ok]
  rw [hS]
  simp only [except_bind_ok, except_pure_eq]
  rfl

/-! ### What the tails compute, by wire-dtype case -/

lemma take_length_map (f : Rat → Rat) (l : List Rat) :
    (l.map f).take l.length = l.map f := by
  rw [← List.length_map l f]
  exact List.take_length _

lemma pureNcclTail_count (c : PureNcclCommunicator) (params : List Param)
    (gdt : Dtype) (n : Nat) (ty : NcclTypeId) (peers : List (List Rat))
    (model : List Param) :
    ((pureNcclTail c params gdt n ty peers model).1.ncclInitCount = c.ncclInitCount ∧
     (pureNcclTail c params gdt n ty peers model).1.nccl_comm = c.nccl_comm) := by
  unfold pureNcclTail PureNcclCommunicator._assign
    PureNcclCommunicator._pack_params_to_buffer
    PureNcclCommunicator._unpack_params_from_buffer
  generalize c.allreduce_grad_dtype.getD gdt = w
  by_cases h : gdt = w <;> simp [h]

lemma pureNcclTail_trace_eq_dtype (c : PureNcclCommunicator)
    (params : List Param) (gdt : Dtype) (n : Nat) (ty : NcclTypeId)
    (peers : List (List Rat)) (model : List Param)
    (hw : c.allreduce_grad_dtype.getD gdt = gdt) :
    (pureNcclTail c params gdt n ty peers model).2.2 =
      [Ev.packParams .grad gdt.itemsize .bufA,
       Ev.allReduce .bufA .bufB n ty .sum .world,
       Ev.scale (1 / (c.size : Rat)),
       Ev.copyIn .bufB,
       Ev.unpackParams .grad gdt.itemsize .bufB] := by
  unfold pureNcclTail PureNcclCommunicator._pack_params_to_buffer
    PureNcclCommunicator._unpack_params_from_buffer
  simp [hw, PureNcclCommunicator.size, PureNcclCommunicator._assign]

lemma pureNcclTail_trace_ne_dtype (c : PureNcclCommunicator)
    (params : List Param) (gdt w : Dtype) (n : Nat) (ty : NcclTypeId)
    (peers : List (List Rat)) (model : List Param)
    (hw : c.allreduce_grad_dtype.getD gdt = w) (hne : gdt ≠ w) :
    (pureNcclTail c params gdt n ty peers model).2.2 =
      [Ev.packParams .grad gdt.itemsize .tmp,
       Ev.convert gdt w,
       Ev.copyIn .bufA,
       Ev.allReduce .bufA .bufB n ty .sum .world,
       Ev.scale (1 / (c.size : Rat)),
       Ev.copyIn .bufB,
       Ev.convert w gdt,
       Ev.copyIn .tmp,
       Ev.unpackParams .grad gdt.itemsize .tmp] := by
  unfold pureNcclTail PureNcclCommunicator._pack_params_to_buffer
    PureNcclCommunicator._unpack_params_from_buffer
  simp [hw, hne, PureNcclCommunicator.size, PureNcclCommunicator._assign]

lemma pureNcclTail_bufA_eq_dtype (c : PureNcclCommunicator)
    (params : List Param) (gdt : Dtype) (n : Nat) (ty : NcclTypeId)
    (peers : List (List Rat)) (model : List Param)
    (hw : c.allreduce_grad_dtype.getD gdt = gdt) :
    (pureNcclTail c params gdt n ty peers model).1.gpu_allreduce_buffer_a.contents =
      concatView .grad params := by
  unfold pureNcclTail PureNcclCommunicator._pack_params_to_buffer
    PureNcclCommunicator._unpack_params_from_buffer
  simp [hw, PureNcclCommunicator.size, PureNcclCommunicator._assign,
    pack_params, DeviceMemory.from_device]

lemma pureNcclTail_bufA_ne_dtype (c : PureNcclCommunicator)
    (params : List Param) (gdt w : Dtype) (n : Nat) (ty : NcclTypeId)
    (peers : List (List Rat)) (model : List Param)
    (hw : c.allreduce_grad_dtype.getD gdt = w) (hne : gdt ≠ w)
    (hn : n = (concatView .grad params).length) :
    (pureNcclTail c params gdt n ty peers model).1.gpu_allreduce_buffer_a.contents =
      (concatView .grad params).map (astype w) := by
  unfold pureNcclTail PureNcclCommunicator._pack_params_to_buffer
    PureNcclCommunicator._unpack_params_from_buffer
  simp [hw, hne, PureNcclCommunicator.size, PureNcclCommunicator._assign,
    pack_params, DeviceMemory.from_device, DeviceMemory.array, hn]

lemma map_scale_one (l : List Rat) (s : Nat) (hs : s = 1) :
    l.map (fun x => x * (1 / (s : Rat))) = l := by
  subst hs
  simp

lemma unpack_params_concat_map2 (v : ViewKind) (f : Rat → Rat) (i : Nat)
    (params : List Param) :
    unpack_params params i v ((concatView v params).map f) =
      params.map (fun p => setView v p ((viewOf v p).map f)) := by
  have := unpack_params_concat_map v f i params []
  simpa using this

lemma pureNcclTail_params_eq_dtype_single (c : PureNcclCommunicator)
    (params : List Param) (gdt : Dtype) (n : Nat) (ty : NcclTypeId)
    (model : List Param)
    (hw : c.allreduce_grad_dtype.getD gdt = gdt)
    (hn : n = (concatView .grad params).length)
    (hsz : c.mpi.size = 1)
    (hall : ∀ p ∈ params, p.grad.isSome) :
    (pureNcclTail c params gdt n ty [] model).2.1 = applyParams model params := by
  have hparams : params.map (fun p => setView .grad p (viewOf .grad p)) = params := by
    rw [List.map_congr_left (fun p hp => setView_viewOf_grad (hall p hp))]
    simp
  unfold pureNcclTail PureNcclCommunicator._pack_params_to_buffer
    PureNcclCommunicator._unpack_params_from_buffer PureNcclCommunicator._assign
  rw [hw]
  simp [pack_params, DeviceMemory.from_device, DeviceMemory.array,
    PureNcclCommunicator.size, hsz, hn, allReduceSum_peers_nil,
    List.take_length, unpack_params_concat, hparams]

lemma pureNcclTail_params_ne_dtype_single (c : PureNcclCommunicator)
    (params : List Param) (gdt w : Dtype) (n : Nat) (ty : NcclTypeId)
    (model : List Param)
    (hw : c.allreduce_grad_dtype.getD gdt = w) (hne : gdt ≠ w)
    (hn : n = (concatView .grad params).length)
    (hsz : c.mpi.size = 1) :
    (pureNcclTail c params gdt n ty [] model).2.1 =
      applyParams model (params.map (fun p =>
        setView .grad p ((viewOf .grad p).map (fun x => astype gdt (astype w x))))) := by
  unfold pureNcclTail PureNcclCommunicator._pack_params_to_buffer
    PureNcclCommunicator._unpack_params_from_buffer PureNcclCommunicator._assign
  rw [hw]
  simp [hne, pack_params, DeviceMemory.from_device, DeviceMemory.array,
    PureNcclCommunicator.size, hsz, hn, allReduceSum_peers_nil,
    take_length_map, List.take_take, List.map_map, unpack_params_concat_map2,
    Function.comp, Function.comp_def]

lemma singleAllreduceTail_spec (c : SingleNodeCommunicator)
    (params : List Param) (n : Nat) (peers : List (List Rat))
    (model : List Param) :
    (singleAllreduceTail c params n peers model).2.2 =
      [Ev.packParams .grad 4 .bufA,
       Ev.allReduce .bufA .bufB n NCCL_FLOAT .sum .intra,
       Ev.scale (1 / (c.size : Rat)),
       Ev.unpackParams .grad 4 .bufB] ∧
    (singleAllreduceTail c params n peers model).1.gpu_buffer_a.contents =
      concatView .grad params ∧
    (singleAllreduceTail c params n peers model).1.gpu_buffer_b.contents =
      ((allReduceSum ((concatView .grad params).take n) peers).take n).map
        (fun x => x * (1 / (c.size : Rat))) ∧
    (singleAllreduceTail c params n peers model).2.1 =
      applyParams model (unpack_params params 4 .grad
        (((allReduceSum ((concatView .grad params).take n) peers).take n).map
          (fun x => x * (1 / (c.size : Rat))))) := by
  unfold singleAllreduceTail
  simp [SingleNodeCommunicator.size, pack_params, DeviceMemory.from_device,
    DeviceMemory.array]

lemma singleBroadcastTail_spec (c : SingleNodeCommunicator)
    (params : List Param) (n : Nat) (model : List Param) :
    (singleBroadcastTail c params n model).2.2 =
      [Ev.packParams .data 4 .bufA,
       Ev.bcast .bufA n NCCL_FLOAT 0 .intra,
       Ev.unpackParams .data 4 .bufA] ∧
    (singleBroadcastTail c params n model).1.gpu_buffer_a.capacityBytes =
      max c.gpu_buffer_a.capacityBytes (n * 4) ∧
    (singleBroadcastTail c params n model).2.1 =
      applyParams model (unpack_params params 4 .data (concatView .data params)) := by
  unfold singleBroadcastTail
  simp [pack_params, DeviceMemory.from_device, DeviceMemory.assign]

lemma singleAllreduceTail_params_single (c : SingleNodeCommunicator)
    (params : List Param) (n : Nat) (model : List Param)
    (hn : n = (concatView .grad params).length)
    (hsz : c.mpi.size = 1)
    (hall : ∀ p ∈ params, p.grad.isSome) :
    (singleAllreduceTail c params n [] model).2.1 = applyParams model params := by
  have hparams : params.map (fun p => setView .grad p (viewOf .grad p)) = params := by
    rw [List.map_congr_left (fun p hp => setView_viewOf_grad (hall p hp))]
    simp
  unfold singleAllreduceTail
  simp [SingleNodeCommunicator.size, pack_params, DeviceMemory.from_device,
    DeviceMemory.array, hn, hsz, allReduceSum_peers_nil, List.take_length,
    List.take_take, unpack_params_concat, hparams]

lemma applyParams_extract_self (model : List Param)
    (hnd : (model.map Param.name).Nodup) :
    applyParams model (extract_params model) = model := by
  have hid : extract_params model = (extract_params model).map (fun q => q) := by
    simp
  rw [hid, applyParams_map_extract model (fun q => q) (fun q => rfl) hnd]
  simp

/-! ### Concrete fixtures for witnesses and counterexamples -/

/-- An NCCL environment in which the library is available and recent. -/
def envOK : NcclEnv := ⟨true, 2100⟩

/-- A single process on a single node. -/
def mpiOne : MpiComm := ⟨0, 1, 0, 1, 0, 1⟩

/-- Four processes spread over two nodes (`inter_size = 2`). -/
def mpiTwoNodes : MpiComm := ⟨0, 4, 0, 2, 0, 2⟩

/-- A float32 parameter with a gradient view. -/
def paramW : Param := ⟨"w", .float32, [5], some [3, 1]⟩

/-- A parameter without a gradient view (a frozen layer). -/
def paramFrozen : Param := ⟨"frozen", .float32, [1], none⟩

/-- A parameter with a zero-element gradient view. -/
def paramG0 : Param := ⟨"g", .float32, [], some []⟩

/-- A freshly constructed `PureNcclCommunicator` with no dtype override. -/
def pnc0 : PureNcclCommunicator := PureNcclCommunicator.mkInitial mpiOne none

/-- A freshly constructed `PureNcclCommunicator` with a float16 override. -/
def pnc16 : PureNcclCommunicator := PureNcclCommunicator.mkInitial mpiOne (some .float16)

/-- A freshly constructed `SingleNodeCommunicator` on `mpiOne`. -/
def snc0 : SingleNodeCommunicator := ⟨mpiOne, 0, 1, 0, 1, none, none, {}, {}, 0⟩

/-- `snc0` after its first `_init_comms`. -/
def snc1 : SingleNodeCommunicator := ⟨mpiOne, 0, 1, 0, 1, none, some ⟨0⟩, {}, {}, 1⟩

/-- `pnc0` after its first `_init_comms`. -/
def pnc1 : PureNcclCommunicator :=
  { pnc0 with nccl_comm := some ⟨0⟩, ncclInitCount := 1 }

/-- `pnc16` after its first `_init_comms`. -/
def pnc16a : PureNcclCommunicator :=
  { pnc16 with nccl_comm := some ⟨0⟩, ncclInitCount := 1 }

/-! ### Claim theorems -/

/-- C1: the claim says `allreduce_grad` on a model with no gradient-bearing
parameter is a no-op that does not raise, for both communicators.  The
`SingleNodeCommunicator` satisfies it, but `PureNcclCommunicator.allreduce_grad`
reads `params[0]` on the empty extracted parameter list and raises IndexError
on exactly the zero-gradient models the claim (and the spec's edge-case
requirement) covers: evaluating the code at the failing inputs (the empty
model, and a model whose only parameter has no gradient view). -/
theorem pure_nccl_allreduce_zero_grad_model_raises :
    pnc0.allreduce_grad envOK [] [] = .error Err.indexError ∧
    pnc0.allreduce_grad envOK [paramFrozen] [] = .error Err.indexError ∧
    snc0.allreduce_grad envOK [] [] =
      .ok (snc1, [],
        [Ev.packParams .grad 4 .bufA,
         Ev.allReduce .bufA .bufB 0 NCCL_FLOAT .sum .intra,
         Ev.scale 1,
         Ev.unpackParams .grad 4 .bufB]) ∧
    snc0.allreduce_grad envOK [paramFrozen] [] =
      .ok (snc1, [paramFrozen],
        [Ev.packParams .grad 4 .bufA,
         Ev.allReduce .bufA .bufB 0 NCCL_FLOAT .sum .intra,
         Ev.scale 1,
         Ev.unpackParams .grad 4 .bufB]) := by
  have hI : snc0._init_comms envOK = .ok snc1 := by decide
  refine ⟨by decide, by decide, ?_, ?_⟩
  · have hS : sumGradSizes (extract_params ([] : List Param)) = .ok 0 := by decide
    rw [single_allreduce_ok_intro hI hS]
    have hE : extract_params ([] : List Param) = [] := by decide
    rw [hE]
    simp [singleAllreduceTail, pack_params, DeviceMemory.assign,
      DeviceMemory.from_device, DeviceMemory.array, concatView, unpack_params,
      applyParams, allReduceSum_peers_nil, SingleNodeCommunicator.size, snc1,
      NCCL_FLOAT]
    decide
  · have hS : sumGradSizes (extract_params [paramFrozen]) = .ok 0 := by decide
    rw [single_allreduce_ok_intro hI hS]
    have hE : extract_params [paramFrozen] = [] := by decide
    rw [hE]
    simp [singleAllreduceTail, pack_params, DeviceMemory.assign,
      DeviceMemory.from_device, DeviceMemory.array, concatView, unpack_params,
      applyParams, allReduceSum_peers_nil, SingleNodeCommunicator.size, snc1,
      NCCL_FLOAT]
    decide

/-- C2 counterexample: the claim says the NCCL handle is constructed exactly
once, on the first `broadcast_data` or `allreduce_grad` call, and that
re-entering `_init_comms` with the handle present is a no-op.  At concrete
inputs: a `PureNcclCommunicator` whose first call is `broadcast_data` still
has no handle afterwards (construction count 0), and on a
`SingleNodeCommunicator` a second `_init_comms` constructs a second handle
(count 2, handle id 1) because the guard tests the never-assigned
`inter_mpi_comm`. -/
theorem lazy_init_claim_cex :
    ((PureNcclCommunicator.init envOK mpiOne none).map
        (fun c => ((c.broadcast_data [paramW]).1.nccl_comm,
                   (c.broadcast_data [paramW]).1.ncclInitCount))) =
      .ok (none, 0) ∧
    ((((SingleNodeCommunicator.init mpiOne).bind
        (fun c => c._init_comms envOK)).bind
        (fun c => c._init_comms envOK)).map
        (fun c => (c.ncclInitCount, c.intra_nccl_comm))) = .ok (2, some ⟨1⟩) := by
  exact ⟨by decide, by decide⟩

/-- C2 amended: no NCCL handle exists after construction (both
communicators).  For `PureNcclCommunicator`: re-entering `_init_comms` with
the handle present is a no-op reusing it, a fresh communicator's
`_init_comms` constructs the handle once, `broadcast_data` never touches the
handle (it uses the naive MPI broadcast), and a successful `allreduce_grad`
on a fresh communicator constructs the handle exactly once.  For
`SingleNodeCommunicator`: `_init_comms` constructs a fresh handle whenever
`inter_mpi_comm` is `none` — which no code path ever assigns — so re-entry
re-constructs the handle instead of being a no-op. -/
theorem lazy_init_amended :
    (∀ env mpi dt c, PureNcclCommunicator.init env mpi dt = .ok c →
      c.nccl_comm = none ∧ c.ncclInitCount = 0) ∧
    (∀ env c hdl, c.nccl_comm = some hdl →
      PureNcclCommunicator._init_comms env c = .ok c) ∧
    (∀ env c, c.nccl_comm = none → env.available = true →
      PureNcclCommunicator._init_comms env c =
        .ok { c with nccl_comm := some ⟨c.ncclInitCount⟩,
                     ncclInitCount := c.ncclInitCount + 1 }) ∧
    (∀ c model, (PureNcclCommunicator.broadcast_data c model).1 = c) ∧
    (∀ env c model peers out, c.nccl_comm = none →
      PureNcclCommunicator.allreduce_grad env c model peers = .ok out →
      out.1.ncclInitCount = c.ncclInitCount + 1 ∧
        out.1.nccl_comm = some ⟨c.ncclInitCount⟩) ∧
    (∀ mpi c, SingleNodeCommunicator.init mpi = .ok c →
      c.intra_nccl_comm = none ∧ c.inter_mpi_comm = none ∧
        c.ncclInitCount = 0) ∧
    (∀ env c, c.inter_mpi_comm = none → env.available = true →
      SingleNodeCommunicator._init_comms env c =
        .ok { c with intra_nccl_comm := some ⟨c.ncclInitCount⟩,
                     ncclInitCount := c.ncclInitCount + 1 }) := by
  refine ⟨?_, ?_, ?_, ?_, ?_, ?_, ?_⟩
  · intro env mpi dt c h
    unfold PureNcclCommunicator.init at h
    split at h
    · cases h
    · split at h
      · split at h
        · cases h
        · simp only [except_pure_eq, Except.ok.injEq] at h
          subst h
          exact ⟨rfl, rfl⟩
      · simp only [except_pure_eq, Except.ok.injEq] at h
        subst h
        exact ⟨rfl, rfl⟩
  · intro env c hdl h
    unfold PureNcclCommunicator._init_comms
    simp [h]
  · intro env c hn ha
    unfold PureNcclCommunicator._init_comms
    simp [hn, ha]
  · intro c model
    rfl
  · intro env c model peers out hn h
    obtain ⟨c1, p, ps, n, ty, hI, hE, hS, hT, hout⟩ := pure_allreduce_ok_elim h
    unfold PureNcclCommunicator._init_comms at hI
    rw [hn] at hI
    simp only [Option.isSome_none, Bool.false_eq_true, if_false, ite_false] at hI
    split at hI
    · cases hI
    · simp only [except_pure_eq, Except.ok.injEq] at hI
      have hcount := pureNcclTail_count c1 (p :: ps) p.dtype n ty peers model
      rw [hout, hcount.1, hcount.2, ← hI]
      exact ⟨rfl, rfl⟩
  · intro mpi c h
    unfold SingleNodeCommunicator.init at h
    split at h
    · cases h
    · simp only [except_pure_eq, Except.ok.injEq] at h
      subst h
      exact ⟨rfl, rfl, rfl⟩
  · intro env c hn ha
    unfold SingleNodeCommunicator._init_comms
    rw [hn]
    simp [ha]

/-- Witness for C2 amended, at concrete communicators: the fresh states have
no handle and count 0; re-entry on a `PureNcclCommunicator` holding a handle
is a no-op; a fresh `PureNcclCommunicator`'s `_init_comms` and a successful
`allreduce_grad` construct the handle once; `broadcast_data` leaves the state
alone; and on a `SingleNodeCommunicator` that already holds a handle (but
has `inter_mpi_comm = none`, as always) `_init_comms` constructs handle 1 and
bumps the count to 2. -/
theorem lazy_init_amended_witness :
    (pnc0.nccl_comm = none ∧ pnc0.ncclInitCount = 0) ∧
    PureNcclCommunicator._init_comms envOK pnc1 = .ok pnc1 ∧
    PureNcclCommunicator._init_comms envOK pnc0 =
      .ok { pnc0 with nccl_comm := some ⟨pnc0.ncclInitCount⟩,
                      ncclInitCount := pnc0.ncclInitCount + 1 } ∧
    (PureNcclCommunicator.broadcast_data pnc0 [paramW]).1 = pnc0 ∧
    ((pureNcclTail pnc1 [paramG0] Dtype.float32 0 NcclTypeId.ncclFloat32 []
        [paramG0]).1.ncclInitCount = pnc0.ncclInitCount + 1) ∧
    (snc0.intra_nccl_comm = none ∧ snc0.inter_mpi_comm = none ∧
      snc0.ncclInitCount = 0) ∧
    SingleNodeCommunicator._init_comms envOK snc1 =
      .ok { snc1 with intra_nccl_comm := some ⟨snc1.ncclInitCount⟩,
                      ncclInitCount := snc1.ncclInitCount + 1 } := by
  have hI : pnc0._init_comms envOK = .ok pnc1 := by decide
  have hE : extract_params [paramG0] = [paramG0] := by decide
  have hS : sumGradSizes [paramG0] = .ok 0 := by decide
  have hT : _get_nccl_type_id (pnc1.allreduce_grad_dtype.getD paramG0.dtype) =
      .ok .ncclFloat32 := by decide
  have hcall := @pure_allreduce_ok_intro envOK pnc0 pnc1 [paramG0] []
    paramG0 [] 0 NcclTypeId.ncclFloat32 hI hE hS hT
  refine ⟨lazy_init_amended.1 envOK mpiOne none pnc0 (by decide),
    lazy_init_amended.2.1 envOK pnc1 ⟨0⟩ (by decide),
    lazy_init_amended.2.2.1 envOK pnc0 (by decide) (by decide),
    lazy_init_amended.2.2.2.1 pnc0 [paramW],
    (lazy_init_amended.2.2.2.2.1 envOK pnc0 [paramG0] [] _ (by decide) hcall).1,
    lazy_init_amended.2.2.2.2.2.1 mpiOne snc0 (by decide),
    lazy_init_amended.2.2.2.2.2.2 envOK snc1 (by decide) (by decide)⟩

/-- C4: in every successful `allreduce_grad` call of either communicator,
the trace contains the collective sum reduction immediately followed by the
single scaling step with factor `1 / size`, and no scaling occurs anywhere
else — averaging multiplies the reduced sum after the reduction and never
pre-scales the inputs. -/
theorem averaging_after_reduction :
    (∀ env c model peers st mps tr,
      PureNcclCommunicator.allreduce_grad env c model peers = .ok (st, mps, tr) →
      ∃ pre n ty post,
        tr = pre ++ Ev.allReduce .bufA .bufB n ty .sum .world ::
          Ev.scale (1 / (c.size : Rat)) :: post ∧
        (∀ e ∈ pre, e.isScale = false) ∧
        (∀ e ∈ post, e.isScale = false)) ∧
    (∀ env c model peers st mps tr,
      SingleNodeCommunicator.allreduce_grad env c model peers = .ok (st, mps, tr) →
      ∃ pre n post,
        tr = pre ++ Ev.allReduce .bufA .bufB n NCCL_FLOAT .sum .intra ::
          Ev.scale (1 / (c.size : Rat)) :: post ∧
        (∀ e ∈ pre, e.isScale = false) ∧
        (∀ e ∈ post, e.isScale = false)) := by
  constructor
  · intro env c model peers st mps tr h
    obtain ⟨c1, p, ps, n, ty, hI, hE, hS, hT, hout⟩ := pure_allreduce_ok_elim h
    have hmpi := (pure_init_comms_fields hI).1
    have hsz : c1.size = c.size := by
      unfold PureNcclCommunicator.size
      rw [hmpi]
    have htr : tr = (pureNcclTail c1 (p :: ps) p.dtype n ty peers model).2.2 :=
      congrArg (fun t => t.2.2) hout
    by_cases heq : c1.allreduce_grad_dtype.getD p.dtype = p.dtype
    · rw [pureNcclTail_trace_eq_dtype c1 (p :: ps) p.dtype n ty peers model heq,
        hsz] at htr
      refine ⟨[Ev.packParams .grad p.dtype.itemsize .bufA], n, ty,
        [Ev.copyIn .bufB, Ev.unpackParams .grad p.dtype.itemsize .bufB],
        htr, ?_, ?_⟩
      · intro e he
        simp only [List.mem_singleton] at he
        subst he
        rfl
      · intro e he
        simp only [List.mem_cons, List.mem_singleton] at he
        rcases he with rfl | rfl | he
        · rfl
        · rfl
        · cases he
    · have hne : p.dtype ≠ c1.allreduce_grad_dtype.getD p.dtype :=
        fun hh => heq hh.symm
      rw [pureNcclTail_trace_ne_dtype c1 (p :: ps) p.dtype
        (c1.allreduce_grad_dtype.getD p.dtype) n ty peers model rfl hne,
        hsz] at htr
      refine ⟨[Ev.packParams .grad p.dtype.itemsize .tmp,
          Ev.convert p.dtype (c1.allreduce_grad_dtype.getD p.dtype),
          Ev.copyIn .bufA], n, ty,
        [Ev.copyIn .bufB,
          Ev.convert (c1.allreduce_grad_dtype.getD p.dtype) p.dtype,
          Ev.copyIn .tmp,
          Ev.unpackParams .grad p.dtype.itemsize .tmp],
        htr, ?_, ?_⟩
      · intro e he
        simp only [List.mem_cons, List.mem_singleton] at he
        rcases he with rfl | rfl | rfl | he
        · rfl
        · rfl
        · rfl
        · cases he
      · intro e he
        simp only [List.mem_cons, List.mem_singleton] at he
        rcases he with rfl | rfl | rfl | rfl | he
        · rfl
        · rfl
        · rfl
        · rfl
        · cases he
  · intro env c model peers st mps tr h
    obtain ⟨c1, n, hI, hS, hout⟩ := single_allreduce_ok_elim h
    have hmpi := (single_init_comms_fields hI).1
    have hsz : c1.size = c.size := by
      unfold SingleNodeCommunicator.size
      rw [hmpi]
    have htr : tr =
        (singleAllreduceTail c1 (extract_params model) n peers model).2.2 :=
      congrArg (fun t => t.2.2) hout
    rw [(singleAllreduceTail_spec c1 (extract_params model) n peers model).1,
      hsz] at htr
    refine ⟨[Ev.packParams .grad 4 .bufA], n,
      [Ev.unpackParams .grad 4 .bufB], htr, ?_, ?_⟩
    · intro e he
      simp only [List.mem_singleton] at he
      subst he
      rfl
    · intro e he
      simp only [List.mem_singleton] at he
      subst he
      rfl

/-- Witness for C4 at concrete calls of both communicators. -/
theorem averaging_after_reduction_witness :
    (∃ pre n ty post,
      (pureNcclTail pnc1 [paramG0] Dtype.float32 0 NcclTypeId.ncclFloat32 []
          [paramG0]).2.2 =
        pre ++ Ev.allReduce .bufA .bufB n ty .sum .world ::
          Ev.scale (1 / (pnc0.size : Rat)) :: post ∧
      (∀ e ∈ pre, e.isScale = false) ∧
      (∀ e ∈ post, e.isScale = false)) ∧
    (∃ pre n post,
      (singleAllreduceTail snc1 (extract_params [paramW]) 2 [] [paramW]).2.2 =
        pre ++ Ev.allReduce .bufA .bufB n NCCL_FLOAT .sum .intra ::
          Ev.scale (1 / (snc0.size : Rat)) :: post ∧
      (∀ e ∈ pre, e.isScale = false) ∧
      (∀ e ∈ post, e.isScale = false)) := by
  constructor
  · have hI : pnc0._init_comms envOK = .ok pnc1 := by decide
    have hE : extract_params [paramG0] = [paramG0] := by decide
    have hS : sumGradSizes [paramG0] = .ok 0 := by decide
    have hT : _get_nccl_type_id (pnc1.allreduce_grad_dtype.getD paramG0.dtype) =
        .ok .ncclFloat32 := by decide
    exact averaging_after_reduction.1 envOK pnc0 [paramG0] [] _ _ _
      (@pure_allreduce_ok_intro envOK pnc0 pnc1 [paramG0] [] paramG0 [] 0
        NcclTypeId.ncclFloat32 hI hE hS hT)
  · have hI : snc0._init_comms envOK = .ok snc1 := by decide
    have hS : sumGradSizes (extract_params [paramW]) = .ok 2 := by decide
    exact averaging_after_reduction.2 envOK snc0 [paramW] [] _ _ _
      (@single_allreduce_ok_intro envOK snc0 snc1 [paramW] [] 2 hI hS)

/-- C6: every successful `SingleNodeCommunicator.allreduce_grad` call uses
the hardcoded 4-byte item size and the 4-byte float wire tag, runs only on
the intra-node communicator, and performs exactly: pack gradients into
buffer A, sum-reduce A into B across intra-node ranks, multiply B by
`1 / size`, unpack B into the gradients. -/
theorem single_node_allreduce_sequence (env : NcclEnv)
    (c : SingleNodeCommunicator) (model : List Param)
    (peers : List (List Rat)) (st : SingleNodeCommunicator)
    (mps : List Param) (tr : List Ev)
    (h : SingleNodeCommunicator.allreduce_grad env c model peers =
      .ok (st, mps, tr)) :
    ∃ n, sumGradSizes (extract_params model) = .ok n ∧
      tr = [Ev.packParams .grad 4 .bufA,
            Ev.allReduce .bufA .bufB n NCCL_FLOAT .sum .intra,
            Ev.scale (1 / (c.size : Rat)),
            Ev.unpackParams .grad 4 .bufB] ∧
      st.gpu_buffer_a.contents = concatView .grad (extract_params model) ∧
      st.gpu_buffer_b.contents =
        ((allReduceSum ((concatView .grad (extract_params model)).take n)
            peers).take n).map (fun x => x * (1 / (c.size : Rat))) ∧
      mps = applyParams model (unpack_params (extract_params model) 4 .grad
        st.gpu_buffer_b.contents) := by
  obtain ⟨c1, n, hI, hS, hout⟩ := single_allreduce_ok_elim h
  have hmpi := (single_init_comms_fields hI).1
  have hsz : c1.size = c.size := by
    unfold SingleNodeCommunicator.size
    rw [hmpi]
  obtain ⟨h1, h2, h3, h4⟩ :=
    singleAllreduceTail_spec c1 (extract_params model) n peers model
  have hst : st = (singleAllreduceTail c1 (extract_params model) n peers model).1 :=
    congrArg (fun t => t.1) hout
  have hmps : mps = (singleAllreduceTail c1 (extract_params model) n peers model).2.1 :=
    congrArg (fun t => t.2.1) hout
  have htr : tr = (singleAllreduceTail c1 (extract_params model) n peers model).2.2 :=
    congrArg (fun t => t.2.2) hout
  refine ⟨n, hS, ?_, ?_, ?_, ?_⟩
  · rw [htr, h1, hsz]
  · rw [hst, h2]
  · rw [hst, h3, hsz]
  · rw [hmps, h4, hst, h3, hsz]

/-- Witness for C6 at a concrete call. -/
theorem single_node_allreduce_sequence_witness :
    ∃ n, sumGradSizes (extract_params [paramW]) = .ok n ∧
      (singleAllreduceTail snc1 (extract_params [paramW]) 2 [] [paramW]).2.2 =
        [Ev.packParams .grad 4 .bufA,
         Ev.allReduce .bufA .bufB n NCCL_FLOAT .sum .intra,
         Ev.scale (1 / (snc0.size : Rat)),
         Ev.unpackParams .grad 4 .bufB] ∧
      (singleAllreduceTail snc1 (extract_params [paramW]) 2 [] [paramW]).1.gpu_buffer_a.contents =
        concatView .grad (extract_params [paramW]) ∧
      (singleAllreduceTail snc1 (extract_params [paramW]) 2 [] [paramW]).1.gpu_buffer_b.contents =
        ((allReduceSum ((concatView .grad (extract_params [paramW])).take n)
            []).take n).map (fun x => x * (1 / (snc0.size : Rat))) ∧
      (singleAllreduceTail snc1 (extract_params [paramW]) 2 [] [paramW]).2.1 =
        applyParams [paramW] (unpack_params (extract_params [paramW]) 4 .grad
          (singleAllreduceTail snc1 (extract_params [paramW]) 2 [] [paramW]).1.gpu_buffer_b.contents) := by
  have hI : snc0._init_comms envOK = .ok snc1 := by decide
  have hS : sumGradSizes (extract_params [paramW]) = .ok 2 := by decide
  exact single_node_allreduce_sequence envOK snc0 [paramW] [] _ _ _
    (@single_allreduce_ok_intro envOK snc0 snc1 [paramW] [] 2 hI hS)

/-- Proof-structuring helper: `SingleNodeCommunicator._init_comms` constructs
a fresh handle whenever `inter_mpi_comm` is `none` and NCCL is available. -/
lemma single_init_comms_construct (env : NcclEnv)
    (c : SingleNodeCommunicator) (hn : c.inter_mpi_comm = none)
    (ha : env.available = true) :
    SingleNodeCommunicator._init_comms env c =
      .ok { c with intra_nccl_comm := some ⟨c.ncclInitCount⟩,
                   ncclInitCount := c.ncclInitCount + 1 } := by
  unfold SingleNodeCommunicator._init_comms
  rw [hn]
  simp [ha]

/-- C10: `SingleNodeCommunicator.broadcast_data` walks all named parameters
(sorted by name, no gradient filter) and sizes the transfer buffer from each
parameter's gradient element count at a hardcoded byte width of 4, while
packing, broadcasting and unpacking the data view: if any named parameter
lacks a gradient view the call raises AttributeError instead of skipping it,
and when all parameters have gradients the buffer holds
`4 * (total gradient element count)` bytes. -/
theorem broadcast_data_requires_gradients :
    (∀ env c model, env.available = true → c.inter_mpi_comm = none →
      (∃ p ∈ model, p.grad = none) →
      SingleNodeCommunicator.broadcast_data env c model =
        .error Err.attributeError) ∧
    (∀ env c model, env.available = true → c.inter_mpi_comm = none →
      (∀ p ∈ model, p.grad.isSome) →
      ∃ st mps,
        SingleNodeCommunicator.broadcast_data env c model =
          .ok (st, mps,
            [Ev.packParams .data 4 .bufA,
             Ev.bcast .bufA (concatView .grad (sortedByName model)).length
               NCCL_FLOAT 0 .intra,
             Ev.unpackParams .data 4 .bufA]) ∧
        st.gpu_buffer_a.capacityBytes =
          max c.gpu_buffer_a.capacityBytes
            ((concatView .grad (sortedByName model)).length * 4)) := by
  constructor
  · intro env c model ha hic hbad
    obtain ⟨p, hp, hpg⟩ := hbad
    have hI := single_init_comms_construct env c hic ha
    unfold SingleNodeCommunicator.broadcast_data
    rw [hI]
    simp only [except_bind_ok]
    rw [sumGradSizes_error ⟨p, mem_sortedByName.mpr hp, hpg⟩]
    rfl
  · intro env c model ha hic hall
    have hI := single_init_comms_construct env c hic ha
    have hs : sumGradSizes (sortedByName model) =
        .ok (concatView .grad (sortedByName model)).length :=
      sumGradSizes_ok (fun p hp => hall p (mem_sortedByName.mp hp))
    have hcall := single_broadcast_ok_intro hI hs
    obtain ⟨h1, h2, h3⟩ := singleBroadcastTail_spec
      { c with intra_nccl_comm := some ⟨c.ncclInitCount⟩,
               ncclInitCount := c.ncclInitCount + 1 }
      (sortedByName model) (concatView .grad (sortedByName model)).length model
    refine ⟨_, (singleBroadcastTail
        { c with intra_nccl_comm := some ⟨c.ncclInitCount⟩,
                 ncclInitCount := c.ncclInitCount + 1 }
        (sortedByName model)
        (concatView .grad (sortedByName model)).length model).2.1, ?_, h2⟩
    rw [hcall]
    exact congrArg Except.ok (by rw [← h1])

/-- Witness for C10: a model whose single parameter lacks a gradient makes
`broadcast_data` raise; a model whose parameter has one broadcasts. -/
theorem broadcast_data_requires_gradients_witness :
    SingleNodeCommunicator.broadcast_data envOK snc0 [paramFrozen] =
      .error Err.attributeError ∧
    (∃ st mps,
      SingleNodeCommunicator.broadcast_data envOK snc0 [paramW] =
        .ok (st, mps,
          [Ev.packParams .data 4 .bufA,
           Ev.bcast .bufA (concatView .grad (sortedByName [paramW])).length
             NCCL_FLOAT 0 .intra,
           Ev.unpackParams .data 4 .bufA]) ∧
      st.gpu_buffer_a.capacityBytes =
        max snc0.gpu_buffer_a.capacityBytes
          ((concatView .grad (sortedByName [paramW])).length * 4)) :=
  ⟨broadcast_data_requires_gradients.1 envOK snc0 [paramFrozen] (by decide)
      (by decide) ⟨paramFrozen, by decide, by decide⟩,
    broadcast_data_requires_gradients.2 envOK snc0 [paramW] (by decide)
      (by decide) (by decide)⟩

/-- C5: on a process group of size 1 (no peers), a successful
`allreduce_grad` leaves every parameter of the model unchanged, except that
when the wire reduction dtype differs from the native gradient dtype each
gradient element goes through the explicit conversion to the wire dtype and
back (the reduced sum of the single contribution times `1/1` is the
identity).  Holds for both communicators; models are assumed to have
distinct parameter names (the external model collaborator guarantees this)
and homogeneous storage dtypes matching the pack width. -/
theorem size_one_allreduce_identity :
    (∀ env c model peers p ps st mps tr,
      PureNcclCommunicator.allreduce_grad env c model peers = .ok (st, mps, tr) →
      extract_params model = p :: ps →
      c.mpi.size = 1 → peers = [] →
      (∀ q ∈ extract_params model, q.dtype = p.dtype) →
      (model.map Param.name).Nodup →
      ((c.allreduce_grad_dtype.getD p.dtype = p.dtype → mps = model) ∧
       (∀ w, c.allreduce_grad_dtype.getD p.dtype = w → w ≠ p.dtype →
         mps = model.map (fun q => if q.grad.isSome then
             setView .grad q ((viewOf .grad q).map
               (fun x => astype p.dtype (astype w x)))
           else q)))) ∧
    (∀ env c model peers st mps tr,
      SingleNodeCommunicator.allreduce_grad env c model peers = .ok (st, mps, tr) →
      c.mpi.size = 1 → peers = [] →
      (∀ q ∈ extract_params model, q.dtype = .float32) →
      (model.map Param.name).Nodup →
      mps = model) := by
  constructor
  · intro env c model peers p ps st mps tr h hE hsize hpeers hhom hnd
    subst hpeers
    obtain ⟨c1, p', ps', n, ty, hI, hE', hS, hT, hout⟩ := pure_allreduce_ok_elim h
    have hpp := hE.symm.trans hE'
    injection hpp with h1 h2
    subst h1
    subst h2
    obtain ⟨hmpi, hdt, _, _, _⟩ := pure_init_comms_fields hI
    have hall : ∀ q ∈ p :: ps, q.grad.isSome := by
      intro q hq
      rw [← hE] at hq
      exact extract_params_grad_isSome hq
    have hn : n = (concatView .grad (p :: ps)).length :=
      (Except.ok.inj ((sumGradSizes_ok hall).symm.trans hS)).symm
    have hsz1 : c1.mpi.size = 1 := by rw [hmpi]; exact hsize
    have hmps : mps = (pureNcclTail c1 (p :: ps) p.dtype n ty [] model).2.1 :=
      congrArg (fun t => t.2.1) hout
    constructor
    · intro hwq
      have hw1 : c1.allreduce_grad_dtype.getD p.dtype = p.dtype := by
        rw [hdt]; exact hwq
      rw [hmps, pureNcclTail_params_eq_dtype_single c1 (p :: ps) p.dtype n ty
        model hw1 hn hsz1 hall, ← hE]
      exact applyParams_extract_self model hnd
    · intro w hw hwne
      have hw1 : c1.allreduce_grad_dtype.getD p.dtype = w := by
        rw [hdt]; exact hw
      have hne : p.dtype ≠ w := fun hh => hwne hh.symm
      rw [hmps, pureNcclTail_params_ne_dtype_single c1 (p :: ps) p.dtype w n ty
        model hw1 hne hn hsz1, ← hE,
        applyParams_map_extract model
          (fun q => setView .grad q ((viewOf .grad q).map
            (fun x => astype p.dtype (astype w x))))
          (fun q => setView_name .grad q _) hnd]
  · intro env c model peers st mps tr h hsize hpeers hhom hnd
    subst hpeers
    obtain ⟨c1, n, hI, hS, hout⟩ := single_allreduce_ok_elim h
    have hmpi := (single_init_comms_fields hI).1
    have hall : ∀ q ∈ extract_params model, q.grad.isSome :=
      fun q hq => extract_params_grad_isSome hq
    have hn : n = (concatView .grad (extract_params model)).length :=
      (Except.ok.inj ((sumGradSizes_ok hall).symm.trans hS)).symm
    have hsz1 : c1.mpi.size = 1 := by rw [hmpi]; exact hsize
    have hmps : mps =
        (singleAllreduceTail c1 (extract_params model) n [] model).2.1 :=
      congrArg (fun t => t.2.1) hout
    rw [hmps, singleAllreduceTail_params_single c1 (extract_params model) n
      model hn hsz1 hall]
    exact applyParams_extract_self model hnd

/-- Witness for C5 at concrete size-1 calls: a `PureNcclCommunicator` with
no dtype override leaves the model unchanged; one with a float16 override
maps each gradient element through float32→float16→float32 conversion; a
`SingleNodeCommunicator` leaves the model unchanged. -/
theorem size_one_allreduce_identity_witness :
    (pureNcclTail pnc1 [paramW] Dtype.float32 2 NcclTypeId.ncclFloat32 []
        [paramW]).2.1 = [paramW] ∧
    (pureNcclTail pnc16a [paramW] Dtype.float32 2 NcclTypeId.ncclFloat16 []
        [paramW]).2.1 =
      [paramW].map (fun q => if q.grad.isSome then
          setView .grad q ((viewOf .grad q).map
            (fun x => astype Dtype.float32 (astype Dtype.float16 x)))
        else q) ∧
    (singleAllreduceTail snc1 (extract_params [paramW]) 2 []
        [paramW]).2.1 = [paramW] := by
  refine ⟨?_, ?_, ?_⟩
  · have hI : pnc0._init_comms envOK = .ok pnc1 := by decide
    have hE : extract_params [paramW] = [paramW] := by decide
    have hS : sumGradSizes [paramW] = .ok 2 := by decide
    have hT : _get_nccl_type_id (pnc1.allreduce_grad_dtype.getD paramW.dtype) =
        .ok .ncclFloat32 := by decide
    exact (size_one_allreduce_identity.1 envOK pnc0 [paramW] []
      paramW [] _ _ _
      (@pure_allreduce_ok_intro envOK pnc0 pnc1 [paramW] [] paramW [] 2
        NcclTypeId.ncclFloat32 hI hE hS hT)
      hE rfl rfl (by decide) (by decide)).1 rfl
  · have hI : pnc16._init_comms envOK = .ok pnc16a := by decide
    have hE : extract_params [paramW] = [paramW] := by decide
    have hS : sumGradSizes [paramW] = .ok 2 := by decide
    have hT : _get_nccl_type_id (pnc16a.allreduce_grad_dtype.getD paramW.dtype) =
        .ok .ncclFloat16 := by decide
    exact (size_one_allreduce_identity.1 envOK pnc16 [paramW] [] paramW []
      _ _ _
      (@pure_allreduce_ok_intro envOK pnc16 pnc16a [paramW] [] paramW [] 2
        NcclTypeId.ncclFloat16 hI hE hS hT)
      hE rfl rfl (by decide) (by decide)).2 Dtype.float16 rfl (by decide)
  · have hI : snc0._init_comms envOK = .ok snc1 := by decide
    have hS : sumGradSizes (extract_params [paramW]) = .ok 2 := by decide
    exact size_one_allreduce_identity.2 envOK snc0 [paramW] []
      _ _ _
      (@single_allreduce_ok_intro envOK snc0 snc1 [paramW] [] 2 hI hS)
      rfl rfl (by decide) (by decide)

/-- C3: in every successful `PureNcclCommunicator.allreduce_grad` call, the
wire reduction dtype is the constructor override when one was given and the
gradients' native dtype otherwise (`c.allreduce_grad_dtype.getD native`);
when wire and native dtypes differ, the call packs gradients into the
staging buffer at native width, converts them elementwise to the wire dtype,
copies them into reduction buffer A, and after the reduction converts back
and stages through the temporary buffer before unpacking at native width;
when they are equal it packs directly into buffer A at wire width.  The
trace equalities exhibit the exact operation sequence, and buffer A holds
the (possibly converted) packed gradients when the reduction runs. -/
theorem mixed_precision_pack_unpack (env : NcclEnv)
    (c : PureNcclCommunicator) (model : List Param)
    (peers : List (List Rat)) (p : Param) (ps : List Param)
    (st : PureNcclCommunicator) (mps : List Param) (tr : List Ev)
    (h : PureNcclCommunicator.allreduce_grad env c model peers = .ok (st, mps, tr))
    (hE : extract_params model = p :: ps) :
    ∃ n ty,
      sumGradSizes (p :: ps) = .ok n ∧
      _get_nccl_type_id (c.allreduce_grad_dtype.getD p.dtype) = .ok ty ∧
      ((c.allreduce_grad_dtype.getD p.dtype = p.dtype →
        tr = [Ev.packParams .grad p.dtype.itemsize .bufA,
              Ev.allReduce .bufA .bufB n ty .sum .world,
              Ev.scale (1 / (c.size : Rat)),
              Ev.copyIn .bufB,
              Ev.unpackParams .grad p.dtype.itemsize .bufB] ∧
        st.gpu_allreduce_buffer_a.contents = concatView .grad (p :: ps)) ∧
      (∀ w, c.allreduce_grad_dtype.getD p.dtype = w → w ≠ p.dtype →
        tr = [Ev.packParams .grad p.dtype.itemsize .tmp,
              Ev.convert p.dtype w,
              Ev.copyIn .bufA,
              Ev.allReduce .bufA .bufB n ty .sum .world,
              Ev.scale (1 / (c.size : Rat)),
              Ev.copyIn .bufB,
              Ev.convert w p.dtype,
              Ev.copyIn .tmp,
              Ev.unpackParams .grad p.dtype.itemsize .tmp] ∧
        st.gpu_allreduce_buffer_a.contents =
          (concatView .grad (p :: ps)).map (astype w))) := by
  obtain ⟨c1, p', ps', n, ty, hI, hE', hS, hT, hout⟩ := pure_allreduce_ok_elim h
  have hpp := hE.symm.trans hE'
  injection hpp with h1 h2
  subst h1
  subst h2
  obtain ⟨hmpi, hdt, _, _, _⟩ := pure_init_comms_fields hI
  have hsz : c1.size = c.size := by
    unfold PureNcclCommunicator.size
    rw [hmpi]
  have hall : ∀ q ∈ p :: ps, q.grad.isSome := by
    intro q hq
    rw [← hE] at hq
    exact extract_params_grad_isSome hq
  have hn : n = (concatView .grad (p :: ps)).length :=
    (Except.ok.inj ((sumGradSizes_ok hall).symm.trans hS)).symm
  have hst : st = (pureNcclTail c1 (p :: ps) p.dtype n ty peers model).1 :=
    congrArg (fun t => t.1) hout
  have htr : tr = (pureNcclTail c1 (p :: ps) p.dtype n ty peers model).2.2 :=
    congrArg (fun t => t.2.2) hout
  refine ⟨n, ty, hS, by rw [← hdt]; exact hT, ?_, ?_⟩
  · intro hwq
    have hw1 : c1.allreduce_grad_dtype.getD p.dtype = p.dtype := by
      rw [hdt]; exact hwq
    constructor
    · rw [htr, pureNcclTail_trace_eq_dtype c1 (p :: ps) p.dtype n ty peers
        model hw1, hsz]
    · rw [hst, pureNcclTail_bufA_eq_dtype c1 (p :: ps) p.dtype n ty peers
        model hw1]
  · intro w hw hwne
    have hw1 : c1.allreduce_grad_dtype.getD p.dtype = w := by
      rw [hdt]; exact hw
    have hne : p.dtype ≠ w := fun hh => hwne hh.symm
    constructor
    · rw [htr, pureNcclTail_trace_ne_dtype c1 (p :: ps) p.dtype w n ty peers
        model hw1 hne, hsz]
    · rw [hst, pureNcclTail_bufA_ne_dtype c1 (p :: ps) p.dtype w n ty peers
        model hw1 hne hn]

/-- Witness for C3 at a concrete mixed-precision call (float32 gradients,
float16 wire override) and a concrete same-dtype call. -/
theorem mixed_precision_pack_unpack_witness :
    (∃ n ty,
      sumGradSizes [paramW] = .ok n ∧
      _get_nccl_type_id (pnc16.allreduce_grad_dtype.getD paramW.dtype) = .ok ty ∧
      ((pnc16.allreduce_grad_dtype.getD paramW.dtype = paramW.dtype →
        (pureNcclTail pnc16a [paramW] Dtype.float32 2 NcclTypeId.ncclFloat16 []
            [paramW]).2.2 =
          [Ev.packParams .grad paramW.dtype.itemsize .bufA,
           Ev.allReduce .bufA .bufB n ty .sum .world,
           Ev.scale (1 / (pnc16.size : Rat)),
           Ev.copyIn .bufB,
           Ev.unpackParams .grad paramW.dtype.itemsize .bufB] ∧
        (pureNcclTail pnc16a [paramW] Dtype.float32 2 NcclTypeId.ncclFloat16 []
            [paramW]).1.gpu_allreduce_buffer_a.contents =
          concatView .grad [paramW]) ∧
      (∀ w, pnc16.allreduce_grad_dtype.getD paramW.dtype = w → w ≠ paramW.dtype →
        (pureNcclTail pnc16a [paramW] Dtype.float32 2 NcclTypeId.ncclFloat16 []
            [paramW]).2.2 =
          [Ev.packParams .grad paramW.dtype.itemsize .tmp,
           Ev.convert paramW.dtype w,
           Ev.copyIn .bufA,
           Ev.allReduce .bufA .bufB n ty .sum .world,
           Ev.scale (1 / (pnc16.size : Rat)),
           Ev.copyIn .bufB,
           Ev.convert w paramW.dtype,
           Ev.copyIn .tmp,
           Ev.unpackParams .grad paramW.dtype.itemsize .tmp] ∧
        (pureNcclTail pnc16a [paramW] Dtype.float32 2 NcclTypeId.ncclFloat16 []
            [paramW]).1.gpu_allreduce_buffer_a.contents =
          (concatView .grad [paramW]).map (astype w)))) := by
  have hI : pnc16._init_comms envOK = .ok pnc16a := by decide
  have hE : extract_params [paramW] = [paramW] := by decide
  have hS : sumGradSizes [paramW] = .ok 2 := by decide
  have hT : _get_nccl_type_id (pnc16a.allreduce_grad_dtype.getD paramW.dtype) =
      .ok .ncclFloat16 := by decide
  exact mixed_precision_pack_unpack envOK pnc16 [paramW] [] paramW [] _ _ _
    (@pure_allreduce_ok_intro envOK pnc16 pnc16a [paramW] [] paramW [] 2
      NcclTypeId.ncclFloat16 hI hE hS hT) hE

/-- C7: constructing a `SingleNodeCommunicator` under a topology with
`inter_size > 1` fails synchronously in the constructor with the
configuration ValueError, before any buffers or collective handles exist
(the constructor returns no state at all). -/
theorem single_node_init_rejects_multi_node (mpi : MpiComm)
    (h : 1 < mpi.interSize) :
    SingleNodeCommunicator.init mpi =
      .error (Err.valueError
        "SingleNodeCommunicator cannot be used under multi-node settings") := by
  unfold SingleNodeCommunicator.init
  have hne : mpi.interSize ≠ 1 := by omega
  simp [hne]

/-- Witness for C7 at a concrete two-node topology. -/
theorem single_node_init_rejects_multi_node_witness :
    SingleNodeCommunicator.init mpiTwoNodes =
      .error (Err.valueError
        "SingleNodeCommunicator cannot be used under multi-node settings") :=
  single_node_init_rejects_multi_node mpiTwoNodes (by decide)

/-- C8: a wire reduction dtype is valid only when it is floating point and in
the fixed set float16/float32/float64: the constructor rejects any
non-floating `allreduce_grad_dtype` (given a new-enough NCCL), the
dtype-to-NCCL-tag mapping succeeds exactly on the fixed set and raises the
type ValueError on everything else, and every dtype the mapping accepts is
floating point. -/
theorem wire_dtype_validation :
    (∀ env mpi d, 2000 ≤ env.version → d.kind ≠ 'f' →
      PureNcclCommunicator.init env mpi (some d) =
        .error (Err.valueError
          "allreduce_grad_dtype must benumpy.float16, numpy.float32,numpy.float64, or None.")) ∧
    (∀ d, (∃ t, _get_nccl_type_id d = .ok t) ↔
      (d = .float16 ∨ d = .float32 ∨ d = .float64)) ∧
    (∀ d, d ≠ .float16 → d ≠ .float32 → d ≠ .float64 →
      _get_nccl_type_id d =
        .error (Err.valueError "dtype must be float16, float32, or float64.")) ∧
    (∀ d, (∃ t, _get_nccl_type_id d = .ok t) → d.kind = 'f') := by
  refine ⟨?_, ?_, ?_, ?_⟩
  · intro env mpi d hv hk
    unfold PureNcclCommunicator.init
    rw [if_neg (by omega)]
    simp [hk]
  · intro d
    cases d <;> simp [_get_nccl_type_id]
  · intro d h1 h2 h3
    unfold _get_nccl_type_id
    simp [h1, h2, h3]
  · intro d hd
    obtain ⟨t, ht⟩ := hd
    cases d <;> simp_all [_get_nccl_type_id, Dtype.kind]

/-- Witness for C8 at concrete dtypes: `int32` is rejected by the
constructor and by the mapping, `float32` is accepted by the mapping. -/
theorem wire_dtype_validation_witness :
    PureNcclCommunicator.init envOK mpiOne (some .int32) =
      .error (Err.valueError
        "allreduce_grad_dtype must benumpy.float16, numpy.float32,numpy.float64, or None.") ∧
    _get_nccl_type_id .int32 =
      .error (Err.valueError "dtype must be float16, float32, or float64.") ∧
    (∃ t, _get_nccl_type_id .float32 = .ok t) := by
  refine ⟨wire_dtype_validation.1 envOK mpiOne .int32 (by decide) (by decide),
    wire_dtype_validation.2.2.1 .int32 (by decide) (by decide) (by decide),
    (wire_dtype_validation.2.1 .float32).mpr (by decide)⟩

/-- C9: `float128` is of numpy kind `f`, so the constructor accepts it as
`allreduce_grad_dtype`, yet `_get_nccl_type_id` has no tag for it, so on the
resulting communicator every `allreduce_grad` call that reaches the dtype
mapping (i.e. on a model with at least one gradient-bearing parameter)
raises the mapping's type ValueError: constructor-time validation is
strictly weaker than use-time validation. -/
theorem float128_accepted_then_rejected (env : NcclEnv) (mpi : MpiComm)
    (model : List Param) (peers : List (List Rat)) (p : Param)
    (ps : List Param)
    (hv : 2000 ≤ env.version) (ha : env.available = true)
    (hE : extract_params model = p :: ps) :
    PureNcclCommunicator.init env mpi (some .float128) =
      .ok (PureNcclCommunicator.mkInitial mpi (some .float128)) ∧
    (PureNcclCommunicator.mkInitial mpi (some .float128)).allreduce_grad
        env model peers =
      .error (Err.valueError "dtype must be float16, float32, or float64.") := by
  constructor
  · unfold PureNcclCommunicator.init
    rw [if_neg (by omega)]
    simp [Dtype.kind]
  · have hall : ∀ q ∈ p :: ps, q.grad.isSome := by
      intro q hq
      rw [← hE] at hq
      exact extract_params_grad_isSome hq
    have hI : (PureNcclCommunicator.mkInitial mpi (some .float128))._init_comms env =
        .ok { PureNcclCommunicator.mkInitial mpi (some .float128) with
                nccl_comm := some ⟨0⟩, ncclInitCount := 1 } := by
      unfold PureNcclCommunicator._init_comms PureNcclCommunicator.mkInitial
      simp [ha]
    unfold PureNcclCommunicator.allreduce_grad
    rw [hI]
    simp only [except_bind_ok]
    rw [hE]
    simp only [except_pure_eq, except_bind_ok, _get_param_grad_dtype]
    rw [sumGradSizes_ok hall]
    simp only [except_bind_ok]
    simp [PureNcclCommunicator.mkInitial, _get_nccl_type_id]

/-- Witness for C9 at a concrete topology and one-parameter model. -/
theorem float128_accepted_then_rejected_witness :
    PureNcclCommunicator.init envOK mpiOne (some .float128) =
      .ok (PureNcclCommunicator.mkInitial mpiOne (some .float128)) ∧
    (PureNcclCommunicator.mkInitial mpiOne (some .float128)).allreduce_grad
        envOK [paramW] [] =
      .error (Err.valueError "dtype must be float16, float32, or float64.") :=
  float128_accepted_then_rejected envOK mpiOne [paramW] [] paramW []
    (by decide) (by decide) (by decide)

end ChainerMN
